import Mathlib

/-!
Shallow embedding of the DTensor redistribute planner and executor from
`torch/distributed/_tensor/_redistribute.py`.

The planner (`_gen_transform_infos` / `search_transform_infos` /
`reshardable_from_src_to_dst`) is translated function-by-function from the
Python source.  The Python `search_transform_infos` mutates its
`src_placements` and `transform_infos` list arguments and recurses with
`current_mesh_idx ± 1`; here it is written in state-passing style, returning
the updated pair, with `none` standing for the `RuntimeError` raised in the
`left_to_right` non-reshardable branch.  The recursion is compiled with an
explicit structural fuel (`search_go`); `search_transform_infos` instantiates
the fuel with the exact number of call frames the Python recursion performs
(one frame per mesh index visited plus the final out-of-range frame), so the
`fuel = 0` case is unreachable on the wrapper's own calls.

The executor (`redistribute_local_tensor`) manipulates local tensors only
through collective primitives that live outside this repository's sources
(`Partial._reduce_value`, `Shard._to_replicate_tensor`, ...), so local
tensors are modelled symbolically: an `STensor` is a term recording which
primitive was applied with which arguments.  A step of the executor's loop
is `exec_step`, `redistribute_loop` is the loop, and the Python
`assert new_local_tensor is not None` checks become `Except.error` values.
-/

namespace DTensor

/-- Placement of one mesh dimension: `Replicate`, `Shard(dim)` or
`Partial(reduce_op)`, as in `torch/distributed/_tensor/placement_types.py`
(structural equality, as in the source). -/
inductive Placement where
  | Replicate : Placement
  | Shard (dim : Nat) : Placement
  | Partial (reduce_op : String) : Placement
deriving DecidableEq, Repr

/-- `placement.is_shard()` with no `dim` argument: is the placement a `Shard`? -/
def Placement.is_shard : Placement → Bool
  | .Shard _ => true
  | _ => false

/-- `placement.is_shard(dim)`: is the placement `Shard(dim)` for this `dim`? -/
def Placement.is_shard_of : Placement → Nat → Bool
  | .Shard d, dim => d == dim
  | _, _ => false

/-- `placement.is_replicate()`. -/
def Placement.is_replicate : Placement → Bool
  | .Replicate => true
  | _ => false

/-- `placement.is_partial()` (named `isPartial` here). -/
def Placement.isPartial : Placement → Bool
  | .Partial _ => true
  | _ => false

/-- A device mesh: the list of per-dimension sizes.  `ndim` and
`size(mesh_dim)` are the only mesh operations the planner uses; the worker's
coordinate (`get_coordinate()`) is threaded explicitly as a parameter. -/
structure DeviceMesh where
  sizes : List Nat
deriving DecidableEq, Repr

/-- `device_mesh.ndim`. -/
def DeviceMesh.ndim (m : DeviceMesh) : Nat := m.sizes.length

/-- `device_mesh.size(mesh_dim)`. -/
def DeviceMesh.size (m : DeviceMesh) (mesh_dim : Nat) : Nat := m.sizes.getD mesh_dim 1

/-- `DTensorSpec`: device mesh, per-mesh-dim placements, and the global shape
from the tensor metadata (the only part of `TensorMeta` the planner reads). -/
structure DTensorSpec where
  device_mesh : DeviceMesh
  placements : List Placement
  shape : List Nat
deriving DecidableEq, Repr

/-- `spec.num_shards`: product of `mesh.size(i)` over the mesh dims whose
placement is a `Shard`. -/
def DTensorSpec.num_shards (s : DTensorSpec) : Nat :=
  s.placements.enum.foldl
    (fun acc p => if p.2.is_shard then acc * s.device_mesh.size p.1 else acc) 1

/-- `_TransformInfo`: one planned step, `(mesh_dim, (from, to), logical_shape)`. -/
structure _TransformInfo where
  mesh_dim : Nat
  src_dst_placements : Placement × Placement
  logical_shape : List Nat
deriving DecidableEq, Repr

/-- `reshardable_from_src_to_dst(current_placements, target_placements,
mesh_dim)`, translated clause-for-clause from the source:
the backwards scan looking for the innermost `Shard(current.dim)` becomes
`find?` over the reversed index range, and the Python `zip` + `break` loop
collecting mesh dims `< mesh_dim` becomes two filters over
`List.range (min mesh_dim (min |cur| |dst|))`. -/
def reshardable_from_src_to_dst (current_placements target_placements : List Placement)
    (mesh_dim : Nat) : Bool :=
  if (match current_placements.getD mesh_dim Placement.Replicate with
      | Placement.Shard d =>
        match (List.range current_placements.length).reverse.find?
            (fun i => (current_placements.getD i Placement.Replicate).is_shard_of d) with
        | some i => i == mesh_dim
        | none => true
      | _ => true) then
    match target_placements.getD mesh_dim Placement.Replicate with
    | Placement.Shard shard_dim =>
      (List.range (min mesh_dim
          (min current_placements.length target_placements.length))).filter
          (fun i => (current_placements.getD i Placement.Replicate).is_shard_of shard_dim)
        == (List.range (min mesh_dim
          (min current_placements.length target_placements.length))).filter
          (fun i => (target_placements.getD i Placement.Replicate).is_shard_of shard_dim)
    | _ => true
  else false

/-- Body of `search_transform_infos`, with a structural fuel standing for the
call stack.  Returns the final `(src_placements, transform_infos)` pair, or
`none` for the `RuntimeError` raised when a mesh dim is not reshardable in
the `left_to_right` pass.  `fuel = 0` never occurs on the calls made by
`search_transform_infos` below. -/
def search_go : Nat → List Placement → List Placement → Int → Nat →
    List (List Nat) → List _TransformInfo → Bool →
    Option (List Placement × List _TransformInfo)
  | 0, _, _, _, _, _, _, _ => none
  | fuel + 1, src_placements, dst_placements, current_mesh_idx, mesh_ndim,
      mesh_dims_to_logical_shape, transform_infos, left_to_right =>
    if src_placements = dst_placements then
      some (src_placements, transform_infos)
    else if current_mesh_idx < 0 ∨ (mesh_ndim : Int) ≤ current_mesh_idx then
      some (src_placements, transform_infos)
    else
      let i : Nat := current_mesh_idx.toNat
      let src := src_placements.getD i Placement.Replicate
      let dst := dst_placements.getD i Placement.Replicate
      if reshardable_from_src_to_dst src_placements dst_placements i then
        if src = dst then
          search_go fuel src_placements dst_placements
            (if left_to_right then current_mesh_idx + 1 else current_mesh_idx - 1)
            mesh_ndim mesh_dims_to_logical_shape transform_infos left_to_right
        else
          search_go fuel (src_placements.set i dst) dst_placements
            (if left_to_right then current_mesh_idx + 1 else current_mesh_idx - 1)
            mesh_ndim mesh_dims_to_logical_shape
            (transform_infos ++
              [⟨i, (src, dst), mesh_dims_to_logical_shape.getD i []⟩])
            left_to_right
      else if left_to_right then
        none
      else
        search_go fuel (src_placements.set i Placement.Replicate) dst_placements
          (current_mesh_idx - 1) mesh_ndim mesh_dims_to_logical_shape
          (transform_infos ++
            [⟨i, (src, Placement.Replicate), mesh_dims_to_logical_shape.getD i []⟩])
          left_to_right

/-- `search_transform_infos(src_placements, dst_placements, current_mesh_idx,
mesh_ndim, mesh_dims_to_logical_shape, transform_infos, left_to_right)`.
The fuel is the exact frame count of the Python recursion: walking right the
indices `current_mesh_idx, ..., mesh_ndim` are visited, walking left the
indices `current_mesh_idx, ..., -1`. -/
def search_transform_infos (src_placements dst_placements : List Placement)
    (current_mesh_idx : Int) (mesh_ndim : Nat)
    (mesh_dims_to_logical_shape : List (List Nat))
    (transform_infos : List _TransformInfo) (left_to_right : Bool) :
    Option (List Placement × List _TransformInfo) :=
  search_go
    (if left_to_right then ((mesh_ndim : Int) + 1 - current_mesh_idx).toNat
     else (current_mesh_idx + 2).toNat)
    src_placements dst_placements current_mesh_idx mesh_ndim
    mesh_dims_to_logical_shape transform_infos left_to_right

/-- Modelled from the spec: `Shard._local_shard_size_on_dim` lives in
`torch/distributed/_tensor/placement_types.py`, which is not among the
sources; spec §4.1 gives `base = logical_size / mesh_size;
rem = logical_size mod mesh_size; local = base + (1 if coord < rem else 0)`. -/
def _local_shard_size_on_dim (logical_size mesh_size my_coord : Nat) : Nat :=
  logical_size / mesh_size + (if my_coord < logical_size % mesh_size then 1 else 0)

/-- The `mesh_dims_to_logical_shape` accumulation loop of
`_gen_transform_infos` (the `for i, (src, dst) in enumerate(zip(...))` loop):
entry `i` is the logical shape of the worker's subtensor after applying the
source placements of the mesh dims before `i`. -/
def build_logical_shapes (device_mesh : DeviceMesh) (my_coordinate : List Nat)
    (src_placements dst_placements : List Placement)
    (initial_logical_shape : List Nat) : List (List Nat) :=
  ((src_placements.zip dst_placements).enum).foldl
    (fun acc p =>
      let i := p.1
      let current_logical_shape := acc.getD i []
      match p.2.1 with
      | Placement.Shard d =>
        if i < device_mesh.ndim - 1 then
          let mesh_dim_size := device_mesh.size i
          let local_shard_size := _local_shard_size_on_dim
            (current_logical_shape.getD d 0) mesh_dim_size (my_coordinate.getD i 0)
          acc ++ [current_logical_shape.set d local_shard_size]
        else acc
      | _ => acc ++ [current_logical_shape])
    [initial_logical_shape]

/-- `_gen_transform_infos(src_spec, dst_spec)`.  The worker's mesh coordinate
(`device_mesh.get_coordinate()`, asserted non-`None` by the source) is an
explicit parameter.  `none` models the `RuntimeError` escaping from
`search_transform_infos`. -/
def _gen_transform_infos (src_spec dst_spec : DTensorSpec)
    (my_coordinate : List Nat) : Option (List _TransformInfo) :=
  if src_spec.device_mesh.ndim = 1 then
    some [⟨0, (src_spec.placements.getD 0 Placement.Replicate,
               dst_spec.placements.getD 0 Placement.Replicate),
           src_spec.shape⟩]
  else
    match (if 1 < src_spec.num_shards then
        search_transform_infos src_spec.placements dst_spec.placements
          ((src_spec.device_mesh.ndim : Int) - 1) src_spec.device_mesh.ndim
          (build_logical_shapes src_spec.device_mesh my_coordinate
            src_spec.placements dst_spec.placements src_spec.shape) [] false
      else some (src_spec.placements, [])) with
    | none => none
    | some r1 =>
      match search_transform_infos r1.1 dst_spec.placements 0
          src_spec.device_mesh.ndim
          (build_logical_shapes src_spec.device_mesh my_coordinate
            src_spec.placements dst_spec.placements src_spec.shape) r1.2 true with
      | none => none
      | some r2 => some r2.2

/-- Symbolic local tensor for the executor: a leaf (the worker's input local
tensor) or the application of one of the collective/local primitives the
executor invokes (`Partial._reduce_value`, `Shard._to_replicate_tensor`,
`Partial._reduce_shard_value`, `Shard._replicate_to_shard`,
`Shard._to_new_shard_dim`, `Partial._partition_value`), recording the
placement data and mesh dim each was called with.  A result equal to the
input leaf means no collective and no local transformation was applied. -/
inductive STensor where
  | leaf (id : Nat) : STensor
  | reduce_value (reduce_op : String) (t : STensor) (mesh_dim : Nat) : STensor
  | to_replicate_tensor (shard_dim : Nat) (t : STensor) (mesh_dim : Nat)
      (logical_shape : List Nat) : STensor
  | reduce_shard_value (reduce_op : String) (t : STensor) (mesh_dim : Nat)
      (target_dim : Nat) : STensor
  | replicate_to_shard (shard_dim : Nat) (t : STensor) (mesh_dim : Nat)
      (coord_on_dim : Nat) : STensor
  | to_new_shard_dim (shard_dim : Nat) (t : STensor) (mesh_dim : Nat)
      (logical_shape : List Nat) (new_dim : Nat) : STensor
  | partition_value (reduce_op : String) (t : STensor) (mesh_dim : Nat) : STensor
deriving DecidableEq, Repr

/-- One iteration of the `for transform_info in transform_infos` loop of
`redistribute_local_tensor`, up to (but not including) the
`assert new_local_tensor is not None` at the loop's end.
`new_local_tensor` is the Python variable of the same name as it stands when
the iteration begins (`none` before the first iteration); the
`Shard(d) -> Shard(d)` fall-through, which assigns nothing, returns it
unchanged.  `Except.error` models the `RuntimeError`s raised in the body. -/
def exec_step (new_local_tensor : Option STensor) (local_tensor : STensor)
    (info : _TransformInfo) (my_coordinate : List Nat) (is_backward : Bool) :
    Except String (Option STensor) :=
  let i := info.mesh_dim
  let current := info.src_dst_placements.1
  let target := info.src_dst_placements.2
  if current = target then
    Except.ok (some local_tensor)
  else
    match target with
    | Placement.Replicate =>
      match current with
      | Placement.Partial op =>
        Except.ok (some (STensor.reduce_value op local_tensor i))
      | Placement.Shard d =>
        Except.ok (some (STensor.to_replicate_tensor d local_tensor i info.logical_shape))
      | _ => Except.error "redistribute to Replicate not supported yet"
    | Placement.Shard target_dim =>
      match current with
      | Placement.Partial op =>
        Except.ok (some (STensor.reduce_shard_value op local_tensor i target_dim))
      | Placement.Replicate =>
        Except.ok (some (STensor.replicate_to_shard target_dim local_tensor i
          (my_coordinate.getD i 0)))
      | Placement.Shard d =>
        if d ≠ target_dim then
          Except.ok (some (STensor.to_new_shard_dim d local_tensor i
            info.logical_shape target_dim))
        else Except.ok new_local_tensor
    | Placement.Partial op =>
      match current with
      | Placement.Replicate =>
        if is_backward then Except.ok (some local_tensor)
        else Except.ok (some (STensor.partition_value op local_tensor i))
      | Placement.Shard d =>
        if is_backward then
          Except.ok (some (STensor.to_replicate_tensor d local_tensor i info.logical_shape))
        else Except.error "redistribute from Shard to Partial not supported yet"
      | Placement.Partial _ => Except.ok (some local_tensor)

/-- The executor's loop over `transform_infos`: after each step the Python
code asserts `new_local_tensor is not None` and continues with
`local_tensor = new_local_tensor`.  Returns the final value of the Python
variable `new_local_tensor` (still `none` when the loop body never ran). -/
def redistribute_loop (infos : List _TransformInfo) (local_tensor : STensor)
    (new_local_tensor : Option STensor) (my_coordinate : List Nat)
    (is_backward : Bool) : Except String (Option STensor) :=
  match infos with
  | [] => Except.ok new_local_tensor
  | info :: rest =>
    match exec_step new_local_tensor local_tensor info my_coordinate is_backward with
    | Except.error e => Except.error e
    | Except.ok none => Except.error "assertion failed: new_local_tensor is not None"
    | Except.ok (some t) => redistribute_loop rest t (some t) my_coordinate is_backward

/-- `redistribute_local_tensor(local_tensor, current_spec, target_spec,
is_backward=...)`.  The worker's coordinate (`device_mesh.get_coordinate()`,
possibly `None`) is explicit; `async_op` only controls waiting on the final
future and is not modelled.  The final
`assert new_local_tensor is not None, "redistribute failed!"` becomes the
error of the same message. -/
def redistribute_local_tensor (local_tensor : STensor)
    (current_spec target_spec : DTensorSpec) (my_coordinate : Option (List Nat))
    (is_backward : Bool) : Except String STensor :=
  if current_spec.device_mesh ≠ target_spec.device_mesh then
    Except.error "Cross device mesh comm not supported yet!"
  else
    match my_coordinate with
    | none => Except.ok local_tensor
    | some coord =>
      match _gen_transform_infos current_spec target_spec coord with
      | none => Except.error "Could not redistribute!"
      | some infos =>
        match redistribute_loop infos local_tensor none coord is_backward with
        | Except.error e => Except.error e
        | Except.ok none => Except.error "redistribute failed!"
        | Except.ok (some t) => Except.ok t

/-- `Redistribute.forward(ctx, input, device_mesh, placements)`: when the
requested placements differ from the input spec's, plan and execute; else
hand back the very same local tensor with the current spec. -/
def Redistribute.forward (input_local : STensor) (input_spec : DTensorSpec)
    (device_mesh : DeviceMesh) (placements : List Placement)
    (my_coordinate : Option (List Nat)) : Except String (STensor × DTensorSpec) :=
  if input_spec.placements ≠ placements then
    let target_spec : DTensorSpec := ⟨device_mesh, placements, input_spec.shape⟩
    match redistribute_local_tensor input_local input_spec target_spec
        my_coordinate false with
    | Except.error e => Except.error e
    | Except.ok t => Except.ok (t, target_spec)
  else Except.ok (input_local, input_spec)

/-- The normalization loop of `Redistribute.backward`: every `Partial`
placement of the forward's source spec becomes `Replicate`, every other
placement is kept. -/
def normalized_placements (previous_placements : List Placement) : List Placement :=
  previous_placements.map
    (fun p => if p.isPartial then Placement.Replicate else p)

/-- `Redistribute.backward(ctx, grad_output)`: redistribute the gradient
from its own spec back to the forward's source spec with
`is_backward=True`, then attach a spec whose placements are the forward
source's with `Partial` normalized to `Replicate`. -/
def Redistribute.backward (grad_local : STensor)
    (grad_spec previous_spec : DTensorSpec) (my_coordinate : Option (List Nat)) :
    Except String (STensor × DTensorSpec) :=
  match redistribute_local_tensor grad_local grad_spec previous_spec
      my_coordinate true with
  | Except.error e => Except.error e
  | Except.ok t =>
    Except.ok (t, ⟨previous_spec.device_mesh,
      normalized_placements previous_spec.placements, grad_spec.shape⟩)

/-- Interpreting a `_TransformInfo` at the placement level: the placement at
`mesh_dim`, which must currently equal the step's `from` placement, becomes
the step's `to` placement.  `none` when the `from` placement does not match
the current tuple. -/
def apply_step (ps : List Placement) (info : _TransformInfo) :
    Option (List Placement) :=
  if ps.getD info.mesh_dim Placement.Replicate = info.src_dst_placements.1 then
    some (ps.set info.mesh_dim info.src_dst_placements.2)
  else none

/-- `apply_step` folded over a step list, in order. -/
def apply_steps (ps : List Placement) : List _TransformInfo → Option (List Placement)
  | [] => some ps
  | info :: rest =>
    match apply_step ps info with
    | some ps2 => apply_steps ps2 rest
    | none => none

/-- The collective-relevant signature of a step: `(mesh_dim, from, to)`,
everything but the per-worker `logical_shape`. -/
def step_sig (info : _TransformInfo) : Nat × Placement × Placement :=
  (info.mesh_dim, info.src_dst_placements)

/-! Concrete meshes and specs used by the scenario theorems and witnesses. -/

/-- The 2×2 mesh of scenario S3. -/
def mesh2x2 : DeviceMesh := ⟨[2, 2]⟩

/-- S3 source spec: `(Shard(0), Shard(0))`, global shape `(4, 4)`. -/
def srcS3 : DTensorSpec := ⟨mesh2x2, [Placement.Shard 0, Placement.Shard 0], [4, 4]⟩

/-- S3 destination spec: `(Replicate, Shard(0))`, global shape `(4, 4)`. -/
def dstS3 : DTensorSpec := ⟨mesh2x2, [Placement.Replicate, Placement.Shard 0], [4, 4]⟩

/-- A 2×2×2 mesh. -/
def mesh2x2x2 : DeviceMesh := ⟨[2, 2, 2]⟩

/-- Placements `(Shard(0), Replicate, Shard(0))` on the 2×2×2 mesh. -/
def curSRS : List Placement :=
  [Placement.Shard 0, Placement.Replicate, Placement.Shard 0]

/-- Placements `(Shard(0), Shard(0), Shard(0))` on the 2×2×2 mesh. -/
def dstSSS : List Placement :=
  [Placement.Shard 0, Placement.Shard 0, Placement.Shard 0]

/-- Spec `(Shard(0), Replicate, Shard(0))`, shape `(8,)`, on the 2×2×2 mesh. -/
def srcSpecSRS : DTensorSpec := ⟨mesh2x2x2, curSRS, [8]⟩

/-- Spec `(Shard(0), Shard(0), Shard(0))`, shape `(8,)`, on the 2×2×2 mesh. -/
def dstSpecSSS : DTensorSpec := ⟨mesh2x2x2, dstSSS, [8]⟩

/-- The logical shapes `_gen_transform_infos` builds for
`srcSpecSRS → dstSpecSSS` at mesh coordinate `(0, 0, 0)`. -/
def shapesSRS : List (List Nat) :=
  build_logical_shapes mesh2x2x2 [0, 0, 0] curSRS dstSSS [8]

/-- A 1-dimensional mesh of 4 workers. -/
def mesh4 : DeviceMesh := ⟨[4]⟩

/-- Spec `Partial(sum)` on the 1-dimensional mesh, shape `(8,)`. -/
def specPartialSum : DTensorSpec := ⟨mesh4, [Placement.Partial "sum"], [8]⟩

/-- Spec `Replicate` on the 1-dimensional mesh, shape `(8,)`. -/
def specReplicate1 : DTensorSpec := ⟨mesh4, [Placement.Replicate], [8]⟩

/-- The last mesh dim — scanning from the highest index backwards — whose
placement in `cur` is `Shard(d)`: the claim's reading of the backwards scan
inside `reshardable_from_src_to_dst`. -/
def last_shard_dim (cur : List Placement) (d : Nat) : Option Nat :=
  ((List.range cur.length).filter
    (fun j => (cur.getD j Placement.Replicate).is_shard_of d)).getLast?

/-- The reshardability predicate as claim C4 words it: false whenever
`cur[i]` is `Shard(d)` and the last mesh dim whose placement in `cur` is
`Shard(d)` is not `i` itself; otherwise true when `dst[i]` is not a `Shard`;
and for `dst[i] = Shard(d2)`, true exactly when the set of mesh dims `< i`
whose current placement shards tensor dim `d2` equals the set of mesh dims
`< i` whose destination placement shards `d2`.  Claim-side definition, to be
compared with the source-side `reshardable_from_src_to_dst`. -/
def reshardable_claim (cur dst : List Placement) (i : Nat) : Bool :=
  (match cur.getD i Placement.Replicate with
   | Placement.Shard d => decide (last_shard_dim cur d = some i)
   | _ => true)
  && (match dst.getD i Placement.Replicate with
      | Placement.Shard d2 =>
        decide ((Finset.range i).filter
            (fun j => (cur.getD j Placement.Replicate).is_shard_of d2 = true)
          = (Finset.range i).filter
            (fun j => (dst.getD j Placement.Replicate).is_shard_of d2 = true))
      | _ => true)

/-! Helper lemmas. -/

/-- `search_go` with equal source and destination placement lists returns at
once without emitting a step, for any positive fuel. -/
theorem search_go_self (fuel : Nat) (p : List Placement) (idx : Int) (n : Nat)
    (sh : List (List Nat)) (I : List _TransformInfo) (ltr : Bool) (h : 0 < fuel) :
    search_go fuel p p idx n sh I ltr = some (p, I) := by
  cases fuel with
  | zero => omega
  | succ f => simp [search_go]

/-- `search_transform_infos` with equal source and destination placement
lists returns at once without emitting a step. -/
theorem search_transform_infos_self (p : List Placement) (idx : Int) (n : Nat)
    (sh : List (List Nat)) (I : List _TransformInfo) (ltr : Bool)
    (h : -1 ≤ idx ∧ idx ≤ (n : Int)) :
    search_transform_infos p p idx n sh I ltr = some (p, I) := by
  unfold search_transform_infos
  apply search_go_self
  split <;> omega

/-- With equal placement tuples on a multi-dimensional mesh,
`_gen_transform_infos` returns the empty plan. -/
theorem gen_same_placements (cs ts : DTensorSpec) (coord : List Nat)
    (hp : cs.placements = ts.placements) (h2 : 2 ≤ cs.device_mesh.ndim) :
    _gen_transform_infos cs ts coord = some [] := by
  have hne : ¬ cs.device_mesh.ndim = 1 := by omega
  unfold _gen_transform_infos
  rw [if_neg hne, hp]
  have e1 := search_transform_infos_self ts.placements
    ((cs.device_mesh.ndim : Int) - 1) cs.device_mesh.ndim
    (build_logical_shapes cs.device_mesh coord ts.placements ts.placements cs.shape)
    [] false (by constructor <;> omega)
  have e2 := search_transform_infos_self ts.placements 0 cs.device_mesh.ndim
    (build_logical_shapes cs.device_mesh coord ts.placements ts.placements cs.shape)
    [] true (by constructor <;> omega)
  simp only [e1, ite_self, e2]

/-- C6: idempotence of redistribute — `Redistribute.forward` with target
placements equal to the input spec's current placements returns the very
same local tensor `x` (unchanged, so no collective was emitted and no
transform step executed) together with the unchanged spec; the planner and
executor are bypassed entirely. -/
theorem forward_same_placements_identity (x : STensor) (spec : DTensorSpec)
    (mesh : DeviceMesh) (coord : Option (List Nat)) :
    Redistribute.forward x spec mesh spec.placements coord = Except.ok (x, spec) := by
  simp [Redistribute.forward]

/-- C7: backward-flag transition semantics of the executor's loop body
(`exec_step`): a `Shard → Partial` step raises when `is_backward` is false;
with `is_backward` true it is executed as the `Shard → Replicate` lowering
(`Shard._to_replicate_tensor`, an all-gather), and a `Replicate → Partial`
step returns the local tensor unchanged (the partition scaling is skipped). -/
theorem exec_step_backward_flag (prev : Option STensor) (x : STensor)
    (i d : Nat) (op : String) (sh : List Nat) (coord : List Nat) :
    exec_step prev x ⟨i, (Placement.Shard d, Placement.Partial op), sh⟩ coord false
      = Except.error "redistribute from Shard to Partial not supported yet"
    ∧ exec_step prev x ⟨i, (Placement.Shard d, Placement.Partial op), sh⟩ coord true
      = Except.ok (some (STensor.to_replicate_tensor d x i sh))
    ∧ exec_step prev x ⟨i, (Placement.Replicate, Placement.Partial op), sh⟩ coord true
      = Except.ok (some x) := by
  refine ⟨?_, ?_, ?_⟩ <;> simp [exec_step]

/-- C9: a worker whose mesh coordinate is `None` gets its input local tensor
back unchanged from `redistribute_local_tensor` — no transform steps are
generated and no collective is invoked (the executor is skipped before the
planner is even called) — for every pair of specs on the same mesh. -/
theorem nonmember_worker_identity (x : STensor) (cs ts : DTensorSpec) (b : Bool)
    (h : cs.device_mesh = ts.device_mesh) :
    redistribute_local_tensor x cs ts none b = Except.ok x := by
  simp [redistribute_local_tensor, h]

/-- Witness for C9 at a concrete input. -/
theorem nonmember_worker_identity_witness :
    redistribute_local_tensor (STensor.leaf 0) srcS3 dstS3 none false
      = Except.ok (STensor.leaf 0) :=
  nonmember_worker_identity (STensor.leaf 0) srcS3 dstS3 false rfl

/-- C10: calling `redistribute_local_tensor` directly with equal placement
tuples on a mesh of `ndim ≥ 2` yields an empty transform-step list, and the
final `assert new_local_tensor is not None, "redistribute failed!"` fires
instead of returning the input; on a 1-dimensional mesh a single no-op step
is emitted and the input is returned; the identity case also succeeds at the
public `Redistribute.forward` level, which bypasses the executor. -/
theorem executor_identity_assert (x : STensor) (cs ts : DTensorSpec)
    (coord : List Nat) (b : Bool) (hm : cs.device_mesh = ts.device_mesh)
    (hp : cs.placements = ts.placements) :
    (2 ≤ cs.device_mesh.ndim →
      _gen_transform_infos cs ts coord = some [] ∧
      redistribute_local_tensor x cs ts (some coord) b
        = Except.error "redistribute failed!")
    ∧ (cs.device_mesh.ndim = 1 →
      redistribute_local_tensor x cs ts (some coord) b = Except.ok x)
    ∧ Redistribute.forward x cs cs.device_mesh ts.placements (some coord)
      = Except.ok (x, cs) := by
  refine ⟨fun h2 => ?_, fun h1 => ?_, ?_⟩
  · have hgen := gen_same_placements cs ts coord hp h2
    refine ⟨hgen, ?_⟩
    simp [redistribute_local_tensor, hm, hgen, redistribute_loop]
  · have hgen : _gen_transform_infos cs ts coord =
        some [⟨0, (cs.placements.getD 0 Placement.Replicate,
                   ts.placements.getD 0 Placement.Replicate), cs.shape⟩] := by
      unfold _gen_transform_infos
      rw [if_pos h1]
    simp [redistribute_local_tensor, hm, hgen, redistribute_loop, exec_step, hp]
  · simp [Redistribute.forward, hp]

/-- Witness for C10 at concrete inputs: equal specs on the 2×2 mesh make the
executor raise, and equal specs on the 1-dimensional mesh return the input. -/
theorem executor_identity_assert_witness :
    (redistribute_local_tensor (STensor.leaf 0) srcS3 srcS3 (some [0, 0]) false
       = Except.error "redistribute failed!")
    ∧ (redistribute_local_tensor (STensor.leaf 1) specReplicate1 specReplicate1
        (some [0]) false = Except.ok (STensor.leaf 1)) :=
  ⟨((executor_identity_assert (STensor.leaf 0) srcS3 srcS3 [0, 0] false
      rfl rfl).1 (by decide)).2,
   (executor_identity_assert (STensor.leaf 1) specReplicate1 specReplicate1
      [0] false rfl rfl).2.1 (by decide)⟩

/-- C2: scenario S3 — on the 2×2 mesh with global shape `(4, 4)`, planning
`(Shard(0), Shard(0)) → (Replicate, Shard(0))` produces exactly three steps
whose `(mesh_dim, from, to)` triples are, in order,
`(1, Shard(0), Replicate)`, `(0, Shard(0), Replicate)`,
`(1, Replicate, Shard(0))`, at every one of the four mesh coordinates. -/
theorem scenario_s3_plan :
    ((_gen_transform_infos srcS3 dstS3 [0, 0]).map (List.map step_sig)
       = some [(1, Placement.Shard 0, Placement.Replicate),
               (0, Placement.Shard 0, Placement.Replicate),
               (1, Placement.Replicate, Placement.Shard 0)])
    ∧ ((_gen_transform_infos srcS3 dstS3 [0, 1]).map (List.map step_sig)
       = some [(1, Placement.Shard 0, Placement.Replicate),
               (0, Placement.Shard 0, Placement.Replicate),
               (1, Placement.Replicate, Placement.Shard 0)])
    ∧ ((_gen_transform_infos srcS3 dstS3 [1, 0]).map (List.map step_sig)
       = some [(1, Placement.Shard 0, Placement.Replicate),
               (0, Placement.Shard 0, Placement.Replicate),
               (1, Placement.Replicate, Placement.Shard 0)])
    ∧ ((_gen_transform_infos srcS3 dstS3 [1, 1]).map (List.map step_sig)
       = some [(1, Placement.Shard 0, Placement.Replicate),
               (0, Placement.Shard 0, Placement.Replicate),
               (1, Placement.Replicate, Placement.Shard 0)]) := by
  decide

/-- `getD` after `set` at the written index. -/
theorem list_getD_set_self {α : Type} (l : List α) (i : Nat) (v d : α)
    (h : i < l.length) : (l.set i v).getD i d = v := by
  rw [List.getD_eq_getElem _ _ (by simpa using h)]
  exact List.getElem_set_self _

/-- `getD` after `set` at another index. -/
theorem list_getD_set_ne {α : Type} (l : List α) (i j : Nat) (v d : α)
    (h : i ≠ j) : (l.set i v).getD j d = l.getD j d := by
  rw [List.getD_eq_getElem?_getD, List.getD_eq_getElem?_getD,
    List.getElem?_set_ne h]

/-- C8: backward normalization — whenever `Redistribute.backward` returns, the
spec attached to the gradient has every `Partial` placement of the forward's
source spec replaced by `Replicate` and every non-`Partial` placement kept
unchanged; in particular no position where the forward source was `Partial`
is `Partial` in the returned spec. -/
theorem backward_normalizes_spec (g : STensor)
    (grad_spec previous_spec : DTensorSpec) (coord : Option (List Nat))
    (t : STensor) (out_spec : DTensorSpec)
    (h : Redistribute.backward g grad_spec previous_spec coord
           = Except.ok (t, out_spec)) :
    out_spec.placements = previous_spec.placements.map
      (fun p => if p.isPartial then Placement.Replicate else p)
    ∧ ∀ i : Nat,
        (previous_spec.placements.getD i Placement.Replicate).isPartial = true →
        (out_spec.placements.getD i Placement.Replicate).isPartial = false := by
  unfold Redistribute.backward at h
  cases hr : redistribute_local_tensor g grad_spec previous_spec coord true with
  | error e => rw [hr] at h; exact absurd h (by simp)
  | ok t0 =>
    rw [hr] at h
    have hplace : out_spec.placements
        = normalized_placements previous_spec.placements := by
      have := congrArg (fun r : STensor × DTensorSpec => r.2.placements)
        (Except.ok.inj h)
      simpa using this.symm
    refine ⟨hplace, fun i hi => ?_⟩
    rw [hplace]
    unfold normalized_placements
    by_cases hlt : i < previous_spec.placements.length
    · rw [List.getD_eq_getElem _ _ (by simpa using hlt), List.getElem_map]
      rw [List.getD_eq_getElem _ _ hlt] at hi
      rw [if_pos hi]
      rfl
    · rw [List.getD_eq_default _ _ (Nat.le_of_not_lt hlt)] at hi
      simp [Placement.isPartial] at hi

/-- Witness for C8 at a concrete input: backward of a
`Partial(sum) → Replicate` forward normalizes the spec to `Replicate`. -/
theorem backward_normalizes_spec_witness :
    (⟨mesh4, [Placement.Replicate], [8]⟩ : DTensorSpec).placements
      = specPartialSum.placements.map
          (fun p => if p.isPartial then Placement.Replicate else p) :=
  (backward_normalizes_spec (STensor.leaf 2) specReplicate1 specPartialSum
    (some [0]) (STensor.leaf 2) ⟨mesh4, [Placement.Replicate], [8]⟩ rfl).1

/-- C3 counterexample: the inner-to-outer pass does NOT always skip a mesh
dim whose current placement equals the destination placement.  Starting from
`cur = (Shard(0), Replicate, Shard(0))`, `dst = (Shard(0), Shard(0),
Shard(0))` on a 2×2×2 mesh, the pass's very first visit is mesh dim 2, where
`cur[2] = Shard(0) = dst[2]`, yet — dim 2 not being reshardable there — the
pass emits the step `(2, Shard(0), Replicate)` at that visit.  The full
planner (`_gen_transform_infos`) reaches exactly this call, so the emitted
five-step plan contains that step. -/
theorem inner_pass_skip_counterexample :
    (search_transform_infos curSRS dstSSS 2 3 shapesSRS [] false).map
        (fun r => r.2.map step_sig)
      = some [(2, Placement.Shard 0, Placement.Replicate),
              (1, Placement.Replicate, Placement.Shard 0),
              (0, Placement.Shard 0, Placement.Replicate)]
    ∧ curSRS.getD 2 Placement.Replicate = dstSSS.getD 2 Placement.Replicate
    ∧ reshardable_from_src_to_dst curSRS dstSSS 2 = false
    ∧ (_gen_transform_infos srcSpecSRS dstSpecSSS [0, 0, 0]).map
        (List.map step_sig)
      = some [(2, Placement.Shard 0, Placement.Replicate),
              (1, Placement.Replicate, Placement.Shard 0),
              (0, Placement.Shard 0, Placement.Replicate),
              (0, Placement.Replicate, Placement.Shard 0),
              (2, Placement.Replicate, Placement.Shard 0)] := by
  decide

/-- C3 amended: during the inner-to-outer pass, at a visit of mesh dim `i`
where the current placement already equals the destination placement
(`cur[i] = dst[i]`), no step is emitted when
`reshardable_from_src_to_dst(cur, dst, i)` holds — the pass just moves
inward to `i - 1` with everything unchanged; but when the dim is not
reshardable, the pass emits the unshard step `(i, cur[i], Replicate)` and
sets `cur[i] = Replicate` even though `cur[i] = dst[i]` at that visit. -/
theorem inner_pass_skip_amended (cur dst : List Placement) (idx : Int)
    (n : Nat) (sh : List (List Nat)) (I : List _TransformInfo)
    (hne : cur ≠ dst) (h0 : 0 ≤ idx) (hn : idx < (n : Int))
    (heq : cur.getD idx.toNat Placement.Replicate
             = dst.getD idx.toNat Placement.Replicate) :
    (reshardable_from_src_to_dst cur dst idx.toNat = true →
      search_transform_infos cur dst idx n sh I false
        = search_transform_infos cur dst (idx - 1) n sh I false)
    ∧ (reshardable_from_src_to_dst cur dst idx.toNat = false →
      search_transform_infos cur dst idx n sh I false
        = search_transform_infos (cur.set idx.toNat Placement.Replicate) dst
            (idx - 1) n sh
            (I ++ [⟨idx.toNat, (cur.getD idx.toNat Placement.Replicate,
                    Placement.Replicate), sh.getD idx.toNat []⟩]) false) := by
  have hfuel1 : (idx + 2).toNat = (idx - 1 + 2).toNat + 1 := by omega
  have hb : ¬ (idx < 0 ∨ (n : Int) ≤ idx) := by omega
  constructor
  · intro hr
    unfold search_transform_infos
    simp only [if_neg (by decide : ¬ false = true)]
    rw [hfuel1]
    simp only [search_go]
    rw [if_neg hne, if_neg hb, if_pos hr, if_pos heq]
    simp only [if_neg (by decide : ¬ false = true)]
  · intro hr
    unfold search_transform_infos
    simp only [if_neg (by decide : ¬ false = true)]
    rw [hfuel1]
    simp only [search_go]
    rw [if_neg hne, if_neg hb,
      if_neg (by rw [hr]; decide : ¬ reshardable_from_src_to_dst cur dst
        idx.toNat = true)]
    simp only [if_neg (by decide : ¬ false = true)]

/-- Witness for C3's amended claim at a concrete input: the non-reshardable
visit of mesh dim 2 in the counterexample scenario. -/
theorem inner_pass_skip_amended_witness :
    search_transform_infos curSRS dstSSS 2 3 shapesSRS [] false
      = search_transform_infos (curSRS.set 2 Placement.Replicate) dstSSS 1 3
          shapesSRS
          [⟨2, (curSRS.getD 2 Placement.Replicate, Placement.Replicate),
            shapesSRS.getD 2 []⟩] false :=
  (inner_pass_skip_amended curSRS dstSSS 2 3 shapesSRS [] (by decide)
    (by decide) (by decide) (by decide)).2 (by decide)

/-- Two filters of `List.range i` are equal iff the predicates agree below
`i`. -/
theorem filter_range_eq_iff (i : Nat) (p q : Nat → Bool) :
    ((List.range i).filter p = (List.range i).filter q)
      ↔ ∀ j, j < i → p j = q j := by
  constructor
  · intro h j hj
    have h1 : j ∈ (List.range i).filter p ↔ j ∈ (List.range i).filter q := by
      rw [h]
    simp only [List.mem_filter, List.mem_range] at h1
    cases hp : p j <;> cases hq : q j <;> simp_all
  · intro h
    exact List.filter_congr (fun x hx => h x (List.mem_range.mp hx))

/-- Two filters of `Finset.range i` are equal iff the predicates agree below
`i`. -/
theorem finset_filter_range_eq_iff (i : Nat) (p q : Nat → Bool) :
    ((Finset.range i).filter (fun j => p j = true)
       = (Finset.range i).filter (fun j => q j = true))
      ↔ ∀ j, j < i → p j = q j := by
  constructor
  · intro h j hj
    have h1 : j ∈ (Finset.range i).filter (fun j => p j = true)
        ↔ j ∈ (Finset.range i).filter (fun j => q j = true) := by rw [h]
    simp only [Finset.mem_filter, Finset.mem_range] at h1
    cases hp : p j <;> cases hq : q j <;> simp_all
  · intro h
    apply Finset.filter_congr
    intro x hx
    simp [h x (Finset.mem_range.mp hx)]

/-- C4: the source's `reshardable_from_src_to_dst` computes exactly the
predicate stated by the claim (`reshardable_claim`), for any placement
lists of equal length and any in-range mesh dim. -/
theorem reshardable_matches_claim (cur dst : List Placement) (i : Nat)
    (hlen : cur.length = dst.length) (hi : i < cur.length) :
    reshardable_from_src_to_dst cur dst i = reshardable_claim cur dst i := by
  have hmin : min i (min cur.length dst.length) = i := by omega
  have hinner : (match cur.getD i Placement.Replicate with
      | Placement.Shard d =>
        match (List.range cur.length).reverse.find?
            (fun j => (cur.getD j Placement.Replicate).is_shard_of d) with
        | some j => j == i
        | none => true
      | _ => true)
      = (match cur.getD i Placement.Replicate with
         | Placement.Shard d => decide (last_shard_dim cur d = some i)
         | _ => true) := by
    cases hc : cur.getD i Placement.Replicate with
    | Shard d =>
      dsimp only
      have hrw : (List.range cur.length).reverse.find?
          (fun j => (cur.getD j Placement.Replicate).is_shard_of d)
          = last_shard_dim cur d :=
        (List.filter_getLast?
          (fun j => (cur.getD j Placement.Replicate).is_shard_of d)
          (List.range cur.length)).symm
      rw [hrw]
      cases hfind : last_shard_dim cur d with
      | none =>
        exfalso
        rw [← hrw] at hfind
        have := List.find?_eq_none.mp hfind i
          (by simp [List.mem_range, hi])
        apply this
        rw [hc]
        simp [Placement.is_shard_of]
      | some j => by_cases hji : j = i <;> simp [hji]
    | Replicate => rfl
    | Partial op => rfl
  have htgt : (match dst.getD i Placement.Replicate with
      | Placement.Shard shard_dim =>
        (List.range i).filter
            (fun j => (cur.getD j Placement.Replicate).is_shard_of shard_dim)
          == (List.range i).filter
            (fun j => (dst.getD j Placement.Replicate).is_shard_of shard_dim)
      | _ => true)
      = (match dst.getD i Placement.Replicate with
         | Placement.Shard d2 =>
           decide ((Finset.range i).filter
               (fun j => (cur.getD j Placement.Replicate).is_shard_of d2 = true)
             = (Finset.range i).filter
               (fun j => (dst.getD j Placement.Replicate).is_shard_of d2 = true))
         | _ => true) := by
    cases hd : dst.getD i Placement.Replicate with
    | Shard d2 =>
      dsimp only
      have hiff :=
        (filter_range_eq_iff i
          (fun j => (cur.getD j Placement.Replicate).is_shard_of d2)
          (fun j => (dst.getD j Placement.Replicate).is_shard_of d2)).trans
        (finset_filter_range_eq_iff i
          (fun j => (cur.getD j Placement.Replicate).is_shard_of d2)
          (fun j => (dst.getD j Placement.Replicate).is_shard_of d2)).symm
      by_cases hfe : (List.range i).filter
          (fun j => (cur.getD j Placement.Replicate).is_shard_of d2)
          = (List.range i).filter
          (fun j => (dst.getD j Placement.Replicate).is_shard_of d2)
      · rw [hfe, hiff.mp hfe]
        simp
      · have hfs := fun hf => hfe (hiff.mpr hf)
        rw [beq_eq_false_iff_ne.mpr hfe, decide_eq_false hfs]
    | Replicate => rfl
    | Partial op => rfl
  unfold reshardable_from_src_to_dst reshardable_claim
  rw [hmin, hinner, htgt]
  cases hA : (match cur.getD i Placement.Replicate with
      | Placement.Shard d => decide (last_shard_dim cur d = some i)
      | _ => true) <;> simp [hA]

/-- Witness for C4 at a concrete input: the non-reshardable dim 1 of the S3
scenario. -/
theorem reshardable_matches_claim_witness :
    reshardable_from_src_to_dst srcS3.placements dstS3.placements 1
      = reshardable_claim srcS3.placements dstS3.placements 1 :=
  reshardable_matches_claim srcS3.placements dstS3.placements 1
    (by decide) (by decide)

/-- The control flow, the final placement list and the emitted
`(mesh_dim, from, to)` signatures of `search_go` do not depend on the
logical-shape table or on the shapes inside the accumulated steps. -/
theorem search_go_sig (fuel : Nat) :
    ∀ (p d : List Placement) (idx : Int) (n : Nat)
      (sh1 sh2 : List (List Nat)) (I1 I2 : List _TransformInfo) (ltr : Bool),
      I1.map step_sig = I2.map step_sig →
      (search_go fuel p d idx n sh1 I1 ltr).map
          (fun r => (r.1, r.2.map step_sig))
        = (search_go fuel p d idx n sh2 I2 ltr).map
          (fun r => (r.1, r.2.map step_sig)) := by
  induction fuel with
  | zero => intro p d idx n sh1 sh2 I1 I2 ltr hI; rfl
  | succ f ih =>
    intro p d idx n sh1 sh2 I1 I2 ltr hI
    simp only [search_go]
    by_cases h1 : p = d
    · rw [if_pos h1, if_pos h1]
      simp [hI]
    · rw [if_neg h1, if_neg h1]
      by_cases h2 : idx < 0 ∨ (n : Int) ≤ idx
      · rw [if_pos h2, if_pos h2]
        simp [hI]
      · rw [if_neg h2, if_neg h2]
        by_cases h3 : reshardable_from_src_to_dst p d idx.toNat = true
        · rw [if_pos h3, if_pos h3]
          by_cases h4 : p.getD idx.toNat Placement.Replicate
              = d.getD idx.toNat Placement.Replicate
          · rw [if_pos h4, if_pos h4]
            exact ih p d _ n sh1 sh2 I1 I2 ltr hI
          · rw [if_neg h4, if_neg h4]
            apply ih
            simp [step_sig, hI]
        · rw [if_neg h3, if_neg h3]
          by_cases h5 : ltr = true
          · rw [if_pos h5, if_pos h5]
          · rw [if_neg h5, if_neg h5]
            apply ih
            simp [step_sig, hI]

/-- `search_transform_infos` version of `search_go_sig`. -/
theorem search_transform_infos_sig (p d : List Placement) (idx : Int) (n : Nat)
    (sh1 sh2 : List (List Nat)) (I1 I2 : List _TransformInfo) (ltr : Bool)
    (hI : I1.map step_sig = I2.map step_sig) :
    (search_transform_infos p d idx n sh1 I1 ltr).map
        (fun r => (r.1, r.2.map step_sig))
      = (search_transform_infos p d idx n sh2 I2 ltr).map
        (fun r => (r.1, r.2.map step_sig)) := by
  unfold search_transform_infos
  exact search_go_sig _ p d idx n sh1 sh2 I1 I2 ltr hI

/-- C5: global plan consistency across workers — for a fixed pair of specs,
two runs of the planner that differ only in the worker's mesh coordinate
return plans of the same length with identical `(mesh_dim, from, to)` at
every index (they also fail together); only the `logical_shape` component
may differ between the two runs. -/
theorem plan_sig_coordinate_independent (src dst : DTensorSpec)
    (c1 c2 : List Nat) :
    (_gen_transform_infos src dst c1).map (List.map step_sig)
      = (_gen_transform_infos src dst c2).map (List.map step_sig) := by
  unfold _gen_transform_infos
  by_cases h1 : src.device_mesh.ndim = 1
  · rw [if_pos h1, if_pos h1]
  · rw [if_neg h1, if_neg h1]
    by_cases h2 : 1 < src.num_shards
    · rw [if_pos h2, if_pos h2]
      have hpass1 := search_transform_infos_sig src.placements dst.placements
        ((src.device_mesh.ndim : Int) - 1) src.device_mesh.ndim
        (build_logical_shapes src.device_mesh c1 src.placements dst.placements
          src.shape)
        (build_logical_shapes src.device_mesh c2 src.placements dst.placements
          src.shape) [] [] false rfl
      cases hq1 : search_transform_infos src.placements dst.placements
          ((src.device_mesh.ndim : Int) - 1) src.device_mesh.ndim
          (build_logical_shapes src.device_mesh c1 src.placements dst.placements
            src.shape) [] false with
      | none =>
        rw [hq1] at hpass1
        cases hq2 : search_transform_infos src.placements dst.placements
            ((src.device_mesh.ndim : Int) - 1) src.device_mesh.ndim
            (build_logical_shapes src.device_mesh c2 src.placements
              dst.placements src.shape) [] false with
        | none => rfl
        | some r2 => rw [hq2] at hpass1; exact absurd hpass1 (by simp)
      | some r1 =>
        rw [hq1] at hpass1
        cases hq2 : search_transform_infos src.placements dst.placements
            ((src.device_mesh.ndim : Int) - 1) src.device_mesh.ndim
            (build_logical_shapes src.device_mesh c2 src.placements
              dst.placements src.shape) [] false with
        | none => rw [hq2] at hpass1; exact absurd hpass1 (by simp)
        | some r2 =>
          rw [hq2] at hpass1
          simp only [Option.map_some'] at hpass1
          have hpair := Option.some.inj hpass1
          have hfst : r1.1 = r2.1 := (Prod.mk.inj hpair).1
          have hsnd : r1.2.map step_sig = r2.2.map step_sig :=
            (Prod.mk.inj hpair).2
          have hpass2 := search_transform_infos_sig r1.1 dst.placements 0
            src.device_mesh.ndim
            (build_logical_shapes src.device_mesh c1 src.placements
              dst.placements src.shape)
            (build_logical_shapes src.device_mesh c2 src.placements
              dst.placements src.shape) r1.2 r2.2 true hsnd
          rw [hfst] at hpass2
          dsimp only
          rw [hfst]
          cases hp1 : search_transform_infos r2.1 dst.placements 0
              src.device_mesh.ndim
              (build_logical_shapes src.device_mesh c1 src.placements
                dst.placements src.shape) r1.2 true with
          | none =>
            rw [hp1] at hpass2
            cases hp2 : search_transform_infos r2.1 dst.placements 0
                src.device_mesh.ndim
                (build_logical_shapes src.device_mesh c2 src.placements
                  dst.placements src.shape) r2.2 true with
            | none => rfl
            | some s2 => rw [hp2] at hpass2; exact absurd hpass2 (by simp)
          | some s1 =>
            rw [hp1] at hpass2
            cases hp2 : search_transform_infos r2.1 dst.placements 0
                src.device_mesh.ndim
                (build_logical_shapes src.device_mesh c2 src.placements
                  dst.placements src.shape) r2.2 true with
            | none => rw [hp2] at hpass2; exact absurd hpass2 (by simp)
            | some s2 =>
              rw [hp2] at hpass2
              simp only [Option.map_some'] at hpass2
              have hpair2 := Option.some.inj hpass2
              have : s1.2.map step_sig = s2.2.map step_sig :=
                (Prod.mk.inj hpair2).2
              simp [this]
    · rw [if_neg h2, if_neg h2]
      dsimp only
      have hpass2 := search_transform_infos_sig src.placements dst.placements 0
        src.device_mesh.ndim
        (build_logical_shapes src.device_mesh c1 src.placements dst.placements
          src.shape)
        (build_logical_shapes src.device_mesh c2 src.placements dst.placements
          src.shape) [] [] true rfl
      cases hp1 : search_transform_infos src.placements dst.placements 0
          src.device_mesh.ndim
          (build_logical_shapes src.device_mesh c1 src.placements dst.placements
            src.shape) [] true with
      | none =>
        rw [hp1] at hpass2
        cases hp2 : search_transform_infos src.placements dst.placements 0
            src.device_mesh.ndim
            (build_logical_shapes src.device_mesh c2 src.placements
              dst.placements src.shape) [] true with
        | none => rfl
        | some s2 => rw [hp2] at hpass2; exact absurd hpass2 (by simp)
      | some s1 =>
        rw [hp1] at hpass2
        cases hp2 : search_transform_infos src.placements dst.placements 0
            src.device_mesh.ndim
            (build_logical_shapes src.device_mesh c2 src.placements
              dst.placements src.shape) [] true with
        | none => rw [hp2] at hpass2; exact absurd hpass2 (by simp)
        | some s2 =>
          rw [hp2] at hpass2
          simp only [Option.map_some'] at hpass2
          have hpair3 := Option.some.inj hpass2
          have : s1.2.map step_sig = s2.2.map step_sig :=
            (Prod.mk.inj hpair3).2
          simp [this]

/-- `apply_steps` distributes over list append. -/
theorem apply_steps_append (a b : List _TransformInfo) (p : List Placement) :
    apply_steps p (a ++ b)
      = (apply_steps p a).bind (fun q => apply_steps q b) := by
  induction a generalizing p with
  | nil => simp [apply_steps]
  | cons x xs ih =>
    simp only [List.cons_append, apply_steps]
    cases apply_step p x with
    | none => simp
    | some p2 => simpa using ih p2

/-- Replaying steps preserves the length of the placement tuple. -/
theorem apply_steps_length (suf : List _TransformInfo) :
    ∀ p q : List Placement, apply_steps p suf = some q → q.length = p.length := by
  induction suf with
  | nil =>
    intro p q h
    rw [← Option.some.inj h]
  | cons x xs ih =>
    intro p q h
    simp only [apply_steps] at h
    cases hs : apply_step p x with
    | none => rw [hs] at h; exact absurd h (by simp)
    | some p2 =>
      rw [hs] at h
      unfold apply_step at hs
      split at hs
      · rw [ih p2 q h, ← Option.some.inj hs, List.length_set]
      · exact absurd hs (by simp)

/-- Soundness of one `search_go` pass: when it returns, the steps it appended
to `transform_infos` replay — via `apply_step` — from the entry placement
tuple to the returned placement tuple; in particular each appended step's
`from` placement equals the tuple's entry at its `mesh_dim` at the moment
the step is emitted. -/
theorem search_go_sound (fuel : Nat) :
    ∀ (p d : List Placement) (idx : Int) (n : Nat) (sh : List (List Nat))
      (I : List _TransformInfo) (ltr : Bool) (p2 : List Placement)
      (I2 : List _TransformInfo),
      search_go fuel p d idx n sh I ltr = some (p2, I2) →
      ∃ suf, I2 = I ++ suf ∧ apply_steps p suf = some p2 := by
  induction fuel with
  | zero =>
    intro p d idx n sh I ltr p2 I2 h
    exact absurd h (by simp [search_go])
  | succ f ih =>
    intro p d idx n sh I ltr p2 I2 h
    simp only [search_go] at h
    by_cases h1 : p = d
    · rw [if_pos h1] at h
      obtain ⟨hp, hI⟩ := Prod.mk.inj (Option.some.inj h)
      exact ⟨[], by simp [← hI], by simp [apply_steps, hp]⟩
    · rw [if_neg h1] at h
      by_cases h2 : idx < 0 ∨ (n : Int) ≤ idx
      · rw [if_pos h2] at h
        obtain ⟨hp, hI⟩ := Prod.mk.inj (Option.some.inj h)
        exact ⟨[], by simp [← hI], by simp [apply_steps, hp]⟩
      · rw [if_neg h2] at h
        by_cases h3 : reshardable_from_src_to_dst p d idx.toNat = true
        · rw [if_pos h3] at h
          by_cases h4 : p.getD idx.toNat Placement.Replicate
              = d.getD idx.toNat Placement.Replicate
          · rw [if_pos h4] at h
            exact ih _ _ _ _ _ _ _ _ _ h
          · rw [if_neg h4] at h
            obtain ⟨suf, hsuf, happ⟩ := ih _ _ _ _ _ _ _ _ _ h
            refine ⟨⟨idx.toNat, (p.getD idx.toNat Placement.Replicate,
              d.getD idx.toNat Placement.Replicate), sh.getD idx.toNat []⟩ :: suf,
              ?_, ?_⟩
            · rw [hsuf]
              simp
            · simp only [apply_steps, apply_step, if_pos rfl]
              exact happ
        · rw [if_neg h3] at h
          by_cases h5 : ltr = true
          · rw [if_pos h5] at h
            exact absurd h (by simp)
          · rw [if_neg h5] at h
            obtain ⟨suf, hsuf, happ⟩ := ih _ _ _ _ _ _ _ _ _ h
            refine ⟨⟨idx.toNat, (p.getD idx.toNat Placement.Replicate,
              Placement.Replicate), sh.getD idx.toNat []⟩ :: suf, ?_, ?_⟩
            · rw [hsuf]
              simp
            · simp only [apply_steps, apply_step, if_pos rfl]
              exact happ

/-- Completeness of the outer-to-inner (`left_to_right`) pass: when it
returns, and every mesh dim before the entry index already agrees with the
destination, the returned placement tuple IS the destination tuple. -/
theorem search_go_complete (fuel : Nat) :
    ∀ (p d : List Placement) (idx : Int) (n : Nat) (sh : List (List Nat))
      (I : List _TransformInfo) (p2 : List Placement) (I2 : List _TransformInfo),
      p.length = n → d.length = n → 0 ≤ idx →
      (∀ j : Nat, (j : Int) < idx →
        p.getD j Placement.Replicate = d.getD j Placement.Replicate) →
      search_go fuel p d idx n sh I true = some (p2, I2) → p2 = d := by
  induction fuel with
  | zero =>
    intro p d idx n sh I p2 I2 _ _ _ _ h
    exact absurd h (by simp [search_go])
  | succ f ih =>
    intro p d idx n sh I p2 I2 hp hd h0 hinv h
    simp only [search_go] at h
    by_cases h1 : p = d
    · rw [if_pos h1] at h
      obtain ⟨hpe, _⟩ := Prod.mk.inj (Option.some.inj h)
      rw [← hpe, h1]
    · rw [if_neg h1] at h
      by_cases h2 : idx < 0 ∨ (n : Int) ≤ idx
      · exfalso
        apply h1
        apply List.ext_getElem (by omega)
        intro j hj1 hj2
        have hjd := hinv j (by omega)
        rw [List.getD_eq_getElem _ _ hj1, List.getD_eq_getElem _ _ hj2] at hjd
        exact hjd
      · rw [if_neg h2] at h
        by_cases h3 : reshardable_from_src_to_dst p d idx.toNat = true
        · rw [if_pos h3] at h
          simp only [if_true] at h
          by_cases h4 : p.getD idx.toNat Placement.Replicate
              = d.getD idx.toNat Placement.Replicate
          · rw [if_pos h4] at h
            refine ih p d (idx + 1) n sh I p2 I2 hp hd (by omega) ?_ h
            intro j hj
            by_cases hji : (j : Int) < idx
            · exact hinv j hji
            · have hj2 : j = idx.toNat := by omega
              rw [hj2]
              exact h4
          · rw [if_neg h4] at h
            refine ih _ d (idx + 1) n sh _ p2 I2 ?_ hd (by omega) ?_ h
            · rw [List.length_set]
              exact hp
            · intro j hj
              by_cases hji : j = idx.toNat
              · rw [hji,
                  list_getD_set_self _ _ _ _ (by omega : idx.toNat < p.length)]
              · rw [list_getD_set_ne _ _ _ _ _ (fun hh => hji hh.symm)]
                exact hinv j (by omega)
        · rw [if_neg h3] at h
          simp at h

/-- C1: planner soundness at the placement level — whenever
`_gen_transform_infos` returns a plan for well-formed specs (placement
tuples of length `mesh.ndim`), replaying each step `(mesh_dim = i, from,
to)` as "the placement at mesh dim `i`, currently equal to `from`, becomes
`to`", in order, transforms the source placement tuple into the destination
placement tuple; `apply_steps` additionally checks, at each step, that
`from` equals the current placement at its `mesh_dim` at the moment the
step is replayed, so success of the replay also certifies that property. -/
theorem planner_sound_applies (src_spec dst_spec : DTensorSpec)
    (coord : List Nat) (infos : List _TransformInfo)
    (hl1 : src_spec.placements.length = src_spec.device_mesh.ndim)
    (hl2 : dst_spec.placements.length = src_spec.device_mesh.ndim)
    (h : _gen_transform_infos src_spec dst_spec coord = some infos) :
    apply_steps src_spec.placements infos = some dst_spec.placements := by
  unfold _gen_transform_infos at h
  by_cases h1 : src_spec.device_mesh.ndim = 1
  · rw [if_pos h1] at h
    rw [← Option.some.inj h]
    simp only [apply_steps, apply_step, if_pos rfl]
    obtain ⟨a, ha⟩ := List.length_eq_one.mp (hl1.trans h1)
    obtain ⟨b, hb⟩ := List.length_eq_one.mp (hl2.trans h1)
    rw [ha, hb]
    rfl
  · rw [if_neg h1] at h
    by_cases h2 : 1 < src_spec.num_shards
    · rw [if_pos h2] at h
      cases hq1 : search_transform_infos src_spec.placements dst_spec.placements
          ((src_spec.device_mesh.ndim : Int) - 1) src_spec.device_mesh.ndim
          (build_logical_shapes src_spec.device_mesh coord src_spec.placements
            dst_spec.placements src_spec.shape) [] false with
      | none => rw [hq1] at h; simp at h
      | some r1 =>
        rw [hq1] at h
        dsimp only at h
        cases hq2 : search_transform_infos r1.1 dst_spec.placements 0
            src_spec.device_mesh.ndim
            (build_logical_shapes src_spec.device_mesh coord src_spec.placements
              dst_spec.placements src_spec.shape) r1.2 true with
        | none => rw [hq2] at h; simp at h
        | some r2 =>
          rw [hq2] at h
          dsimp only at h
          have hinfos : r2.2 = infos := Option.some.inj h
          unfold search_transform_infos at hq1 hq2
          obtain ⟨suf1, hs1, ha1⟩ := search_go_sound _ _ _ _ _ _ _ _ _ _ hq1
          obtain ⟨suf2, hs2, ha2⟩ := search_go_sound _ _ _ _ _ _ _ _ _ _ hq2
          have hlen1 : r1.1.length = src_spec.device_mesh.ndim := by
            rw [apply_steps_length suf1 _ _ ha1]
            exact hl1
          have hr2 : r2.1 = dst_spec.placements :=
            search_go_complete _ _ _ _ _ _ _ _ _ hlen1 hl2 (by omega)
              (fun j hj => absurd hj (by omega)) hq2
          rw [← hinfos, hs2, hs1]
          simp only [List.nil_append]
          rw [apply_steps_append, ha1]
          simp only [Option.some_bind]
          rw [ha2, hr2]
    · rw [if_neg h2] at h
      dsimp only at h
      cases hq2 : search_transform_infos src_spec.placements dst_spec.placements
          0 src_spec.device_mesh.ndim
          (build_logical_shapes src_spec.device_mesh coord src_spec.placements
            dst_spec.placements src_spec.shape) [] true with
      | none => rw [hq2] at h; simp at h
      | some r2 =>
        rw [hq2] at h
        dsimp only at h
        have hinfos : r2.2 = infos := Option.some.inj h
        unfold search_transform_infos at hq2
        obtain ⟨suf2, hs2, ha2⟩ := search_go_sound _ _ _ _ _ _ _ _ _ _ hq2
        have hr2 : r2.1 = dst_spec.placements :=
          search_go_complete _ _ _ _ _ _ _ _ _ hl1 hl2 (by omega)
            (fun j hj => absurd hj (by omega)) hq2
        rw [← hinfos, hs2]
        simp only [List.nil_append]
        rw [ha2, hr2]

/-- Witness for C1 at a concrete input: the S3 plan replays
`(Shard(0), Shard(0))` to `(Replicate, Shard(0))`. -/
theorem planner_sound_applies_witness :
    apply_steps srcS3.placements
      [⟨1, (Placement.Shard 0, Placement.Replicate), [2, 4]⟩,
       ⟨0, (Placement.Shard 0, Placement.Replicate), [4, 4]⟩,
       ⟨1, (Placement.Replicate, Placement.Shard 0), [2, 4]⟩]
      = some dstS3.placements :=
  planner_sound_applies srcS3 dstS3 [0, 0] _ (by decide) (by decide) (by decide)

end DTensor
